import Mathlib

/-!
Verification of the EUR→ARS exchange-rate monitor (`strucio/eur-to-ars`).

The development shallowly embeds the three Python modules:
* `src/modules/web_scraper.py` — text→rate parsing (`extract_numeric_value`,
  the embedding of `WebScraper._extract_numeric_value`) and the retry loop of
  `WebScraper.get_exchange_rate`;
* `src/main.py` — `ExchangeRateMonitor.run`;
* `src/modules/discord_notifier.py` — the three send operations and
  `DiscordNotifier._send_notification`.

Numeric values are embedded as exact rationals (`ℚ`) in place of Python's
binary floats; strings are `List Char`/`String`, with Python's Unicode-aware
`\d` character class modelled as the ASCII digits `'0'..'9'` (the only digits
that occur in the scraped text this program targets).  Python exceptions are
embedded as `Option`/`Except` values; the embedded functions are total, which
is itself the "never raises" behaviour of the absorbed exception handlers.
-/

namespace EurToArs

/-! ## Parsing (`WebScraper._extract_numeric_value`, web_scraper.py lines 118–156) -/

/-- Numeric value of an ASCII digit character (`'0'` ↦ 0, …, `'9'` ↦ 9). -/
def digitVal (c : Char) : Nat := c.toNat - 48

/-- Value of a big-endian ASCII digit string, as Python's `int`/`float` read
digit runs (`"1688"` ↦ 1688). -/
def digitsToNat (l : List Char) : Nat := l.foldl (fun a c => 10 * a + digitVal c) 0

/-- Embedding of `re.sub(r'[^\d.,]', '', text.strip())` (line 130): keep only digits, `'.'`
and `','`.  Leading/trailing whitespace removed by `.strip()` is also removed
by the filter, so a single filter is an exact embedding. -/
def cleanText (l : List Char) : List Char :=
  l.filter (fun c => c.isDigit || c == '.' || c == ',')

/-- The decimal-separator normalization of lines 135–143:
* both `','` and `'.'` present → drop every comma (comma read as thousands
  separator);
* only `','` present → if the group after the last comma has length ≤ 2,
  the comma is the decimal separator (`',' → '.'`), otherwise drop all commas;
* otherwise the string is left unchanged. -/
def handleSeparators (l : List Char) : List Char :=
  if l.contains ',' && l.contains '.' then
    l.filter (fun c => c != ',')
  else if l.contains ',' then
    if ((l.splitOn ',').getLastD []).length ≤ 2 then
      l.map (fun c => if c == ',' then '.' else c)
    else
      l.filter (fun c => c != ',')
  else l

/-- Python's `float(cleaned)` (line 145) on the cleaned strings this program
produces (digits, periods and commas only; after `handleSeparators` no commas
remain).  Returns the exact rational value — for `"a.b"` the value
`(a·10^len(b) + b) / 10^len(b)`, built with `mkRat` — or `none` where Python
raises `ValueError`: no digit at all, more than one `'.'`, or any character
that is neither a digit nor `'.'`. -/
def pyFloat (l : List Char) : Option ℚ :=
  match l.dropWhile (fun c => c != '.') with
  | [] =>
    if (l.takeWhile (fun c => c != '.')).all Char.isDigit &&
        !(l.takeWhile (fun c => c != '.')).isEmpty then
      some (digitsToNat (l.takeWhile (fun c => c != '.')))
    else none
  | _ :: fp =>
    if fp.contains '.' then none
    else if (l.takeWhile (fun c => c != '.')).all Char.isDigit && fp.all Char.isDigit &&
        !((l.takeWhile (fun c => c != '.')).isEmpty && fp.isEmpty) then
      some (mkRat (digitsToNat (l.takeWhile (fun c => c != '.')) * 10 ^ fp.length +
        digitsToNat fp) (10 ^ fp.length))
    else none

/-- Embedding of `WebScraper._extract_numeric_value` (web_scraper.py lines 118–156): clean
the text, return `none` on an empty cleaning, normalize separators, parse as a
float (`ValueError` ↦ `none`), and reject values not strictly inside
`(100, 10000)`.  Total by construction — every Python exception path is a
`none`. -/
def extract_numeric_value (l : List Char) : Option ℚ :=
  let cleaned := cleanText l
  if cleaned.isEmpty then none
  else
    match pyFloat (handleSeparators cleaned) with
    | none => none
    | some v => if 100 < v ∧ v < 10000 then some v else none

/-- The parser `_extract_numeric_value` on a `String` input. -/
def extractS (s : String) : Option ℚ := extract_numeric_value s.toList

/-! ## Retry loop (`WebScraper.get_exchange_rate`, web_scraper.py lines 51–103)

One attempt of the loop body (lines 62–97) is abstracted by its observable
outcome `outcome i : Option ℚ`: the value of `_extract_numeric_value` on the
scraped text if attempt `i` reaches extraction, and `none` when the attempt
fails earlier (empty text, `TimeoutException`, or any other exception — all
absorbed by the `except` clauses, lines 91–94).  Session creation/teardown and
the intra-attempt 2-second grace wait happen inside an attempt and are part of
this abstraction.  The observable events of the loop are recorded in a trace:
one `Ev.attempt i` per iteration started, and one `Ev.sleep delay` for each
`time.sleep(self.delay_between_requests)` executed (lines 99–100). -/

/-- Observable events of one `get_exchange_rate` call. -/
inductive Ev where
  | attempt (i : Nat)
  | sleep (d : ℚ)
deriving DecidableEq

/-- The event is the start of a scraping attempt. -/
def isAttempt : Ev → Bool
  | .attempt _ => true
  | .sleep _ => false

/-- The event is an inter-attempt sleep. -/
def isSleep : Ev → Bool
  | .attempt _ => false
  | .sleep _ => true

/-- Embedding of `if rate:` (line 85): Python truthiness of the extracted value — `None`
and `0.0` are both falsy.  (`_extract_numeric_value` only ever returns values
in `(100, 10000)`, all truthy, but the embedding keeps the test.) -/
def attemptSuccess : Option ℚ → Option ℚ
  | some r => if r = 0 then none else some r
  | none => none

/-- The `for attempt in range(self.max_retries)` loop over the remaining
attempt indices: a truthy rate returns immediately (line 87); otherwise
`time.sleep(delay)` runs when `attempt < max_retries - 1` (lines 99–100) and
the loop continues. -/
def scrapeGo (outcome : Nat → Option ℚ) (delay : ℚ) (maxRetries : Int) :
    List Nat → Option ℚ × List Ev
  | [] => (none, [])
  | i :: rest =>
    match attemptSuccess (outcome i) with
    | some r => (some r, [Ev.attempt i])
    | none =>
      let tail := scrapeGo outcome delay maxRetries rest
      (tail.1, Ev.attempt i ::
        ((if (i : Int) < maxRetries - 1 then [Ev.sleep delay] else []) ++ tail.2))

/-- Embedding of `WebScraper.get_exchange_rate` (lines 61–103): run the bounded retry loop
and return `None` after exhaustion (line 103).  `max_retries` is an `Int` as
in Python; `range(max_retries)` is empty when `max_retries ≤ 0`.  Total: no
exception reaches the caller (every loop-body exception is caught at lines
91–94). -/
def get_exchange_rate (outcome : Nat → Option ℚ) (delay : ℚ) (maxRetries : Int) :
    Option ℚ × List Ev :=
  scrapeGo outcome delay maxRetries (List.range maxRetries.toNat)

/-- The events contributed by failed attempt `i`: the attempt itself, then an
inter-attempt sleep exactly when `i < maxRetries - 1`. -/
def attemptEvents (delay : ℚ) (maxRetries : Int) (i : Nat) : List Ev :=
  Ev.attempt i :: (if (i : Int) < maxRetries - 1 then [Ev.sleep delay] else [])

/-! ## Decimal rendering

`natToDigits10`/`renderDecimal` render naturals and terminating decimals the
way Python prints them; they back both the `f"{x:.2f}"` formatting used in
the notifier and the round-trip statement of spec §8 (parse/normalize
idempotence). -/

/-- The ASCII digit character of `n % 10`-style values. -/
def digitChar (n : Nat) : Char :=
  match n with
  | 0 => '0' | 1 => '1' | 2 => '2' | 3 => '3' | 4 => '4'
  | 5 => '5' | 6 => '6' | 7 => '7' | 8 => '8' | _ => '9'

/-- Big-endian base-10 digit string of a natural number (`1688` ↦ `"1688"`,
`0` ↦ `"0"`). -/
def natToDigits10 (n : Nat) : List Char :=
  if _h : n < 10 then [digitChar n]
  else natToDigits10 (n / 10) ++ [digitChar (n % 10)]
termination_by n
decreasing_by exact Nat.div_lt_self (by omega) (by omega)

/-- The value `m / 10^k` written as a plain decimal string: the digits of `m / 10^k`,
then (when `k > 0`) a period and exactly `k` fraction digits (zero-padded). -/
def renderDecimal (m k : Nat) : List Char :=
  if k = 0 then natToDigits10 m
  else
    natToDigits10 (m / 10 ^ k) ++
      '.' :: (List.replicate (k - (natToDigits10 (m % 10 ^ k)).length) '0' ++
        natToDigits10 (m % 10 ^ k))

/-- The exponent used to render a rational with 10-smooth denominator `d`:
the least `k ≤ d` with `d ∣ 10 ^ k` (falling back to `d` itself). -/
def decExp (d : Nat) : Nat :=
  ((List.range (d + 1)).filter (fun k => decide (d ∣ 10 ^ k))).headD d

/-- The plain decimal string rendering of a nonnegative rational whose
denominator divides a power of ten — the normalized string form of a parsed
rate (`1688.559` ↦ `"1688.559"`, `1800` ↦ `"1800"`). -/
def decRender (v : ℚ) : List Char :=
  renderDecimal (v.num.toNat * (10 ^ decExp v.den / v.den)) (decExp v.den)

/-! ## Notifier (`DiscordNotifier`, discord_notifier.py)

The webhook transport is abstracted by the outcome of the single
`requests.post` call (line 106): `Except.error ()` is a transport-level
exception (`requests.RequestException` or any other), `Except.ok status` a
completed HTTP response with the given final status code.  The non-ASCII
characters below reproduce the bytes stored in the source file
(mojibake-encoded emoji). -/

/-- Result of `requests.post(...)` followed by `response.raise_for_status()`
(lines 106–107) under the two `except` clauses (110–115): a transport
exception returns `False`; `raise_for_status` raises `HTTPError` exactly for
status codes 400–599, which is caught and returns `False`; every other status
(including 1xx/3xx) passes and the method returns `True`. -/
def deliveredBool : Except Unit Nat → Bool
  | .error _ => false
  | .ok status => if 400 ≤ status ∧ status < 600 then false else true

/-- Embedding of `DiscordNotifier._send_notification` (lines 78–115): builds one embed
payload from `message`/`title`/`color`, performs exactly one POST — the second
component counts the `requests.post` calls — and converts every delivery
failure into a `false` return.  Total: both `except` arms return instead of
re-raising. -/
def send_notification (message title : String) (color : Nat)
    (transport : Except Unit Nat) : Bool × Nat :=
  (deliveredBool transport, 1)

/-- The alert emoji literal of line 33 (as stored in the file). -/
def alertEmoji (isAbove : Bool) : String :=
  if isAbove then "ðŸ“ˆ" else "ðŸ“‰"

/-- The direction word `"above"` / `"below"` (line 32). -/
def alertDirection (isAbove : Bool) : String := if isAbove then "above" else "below"

/-- Embed color of line 34: green above, red below. -/
def alertColor (isAbove : Bool) : Nat := if isAbove then 0x00FF00 else 0xFF6B6B

/-- Python's `f"{x:.2f}"` on the nonnegative rates and thresholds this program
formats: round `100·x` to the nearest integer (ties to even) and print with
exactly two digits after the period.  (Python rounds the binary double; on
exact halves the binary value may differ from the rational one — irrelevant
for the inputs here, which are never exact ties at the third decimal.) -/
def fmt2 (x : ℚ) : String :=
  let y := x * 100
  let f := ⌊y⌋
  let n := (if y - f < 1 / 2 then f
            else if 1 / 2 < y - f then f + 1
            else if f % 2 = 0 then f else f + 1).toNat
  let frac := natToDigits10 (n % 100)
  String.mk (natToDigits10 (n / 100)) ++ "." ++
    String.mk (List.replicate (2 - frac.length) '0' ++ frac)

/-- The f-string of lines 36–40: emoji, direction, the 2-decimal current
rate, the 2-decimal threshold. -/
def alertBase (rate threshold : ℚ) (isAbove : Bool) : String :=
  alertEmoji isAbove ++ " **Exchange rate is " ++ alertDirection isAbove ++
    " threshold!**\n\n" ++ "**Current Rate:** " ++ fmt2 rate ++ " ARS per EUR\n" ++
    "**Threshold:** " ++ fmt2 threshold ++ " ARS per EUR"

/-- The alert body of `send_rate_alert` (lines 36–43): the base message, with
the source link appended only when `url` is truthy — neither `None` nor
empty (`if url:`, line 42). -/
def alertMessage (rate threshold : ℚ) (isAbove : Bool) (url : Option String) : String :=
  match url with
  | some u =>
    if u.isEmpty then alertBase rate threshold isAbove
    else alertBase rate threshold isAbove ++ "\n\n[View on Western Union](" ++ u ++ ")"
  | none => alertBase rate threshold isAbove

/-- The alert title of line 45. -/
def alertTitle (isAbove : Bool) : String :=
  "EUR/ARS Rate Alert - " ++ (if isAbove then "Above" else "Below") ++ " Threshold"

/-- Embedding of `DiscordNotifier.send_rate_alert` (lines 19–47). -/
def send_rate_alert (rate threshold : ℚ) (isAbove : Bool) (url : Option String)
    (transport : Except Unit Nat) : Bool × Nat :=
  send_notification (alertMessage rate threshold isAbove url) (alertTitle isAbove)
    (alertColor isAbove) transport

/-- The error body of `send_error_notification` (line 59, with the file's
stored mojibake emoji). -/
def errorBody (m : String) : String := "âŒ **Error occurred:**\n\n" ++ m

/-- Embedding of `DiscordNotifier.send_error_notification` (lines 49–63). -/
def send_error_notification (m : String) (transport : Except Unit Nat) : Bool × Nat :=
  send_notification (errorBody m) "Exchange Rate Monitor Error" 0xFF0000 transport

/-- The test body of line 72 (with the file's stored mojibake emoji). -/
def testBody : String :=
  "ðŸ§ª Test notification from Exchange Rate Monitor\n\n" ++
    "If you see this, notifications are working! âœ…"

/-- Embedding of `DiscordNotifier.send_test_notification` (lines 65–76). -/
def send_test_notification (transport : Except Unit Nat) : Bool × Nat :=
  send_notification testBody "Test Notification" 0x3498DB transport

/-! ## Monitor run (`ExchangeRateMonitor.run`, main.py lines 44–69) -/

/-- A notification call made by `run`, identified by the arguments the
notifier receives. -/
inductive Notif where
  | alert (rate threshold : ℚ) (isAbove : Bool) (url : Option String)
  | error (msg : String)
  | test
deriving DecidableEq

/-- The notification is a rate alert. -/
def isAlert : Notif → Bool
  | .alert _ _ _ _ => true
  | _ => false

/-- The notification is an error report. -/
def isError : Notif → Bool
  | .error _ => true
  | _ => false

/-- The body text the notifier builds for a recorded notification call. -/
def notifBody : Notif → String
  | .alert r t a u => alertMessage r t a u
  | .error m => errorBody m
  | .test => testBody

/-- Embedding of `ExchangeRateMonitor.run` (main.py 44–69).  `acq` is the outcome of
`self.scraper.get_exchange_rate(self.url)`: `Except.error e` an unexpected
exception with message `e` (caught at line 66), `Except.ok r` a normal return.
`deliver` gives each notification call's boolean delivery result, which `run`
receives and discards (lines 54, 62, 68).  Result: the process exit status
(`sys.exit(1)` raises `SystemExit`, which `except Exception` does not catch,
so exactly one error notification precedes the non-zero exit) and the list of
notification calls, each paired with its discarded delivery result. -/
def run (deliver : Notif → Bool) (acq : Except String (Option ℚ))
    (threshold : ℚ) (url : String) : Nat × List (Notif × Bool) :=
  match acq with
  | .error e =>
    let n := Notif.error ("Unexpected error: " ++ e)
    (1, [(n, deliver n)])
  | .ok none =>
    let n := Notif.error "Failed to scrape exchange rate from Western Union"
    (1, [(n, deliver n)])
  | .ok (some r) =>
    if threshold ≤ r then
      let n := Notif.alert r threshold true (some url)
      (0, [(n, deliver n)])
    else (0, [])

/-- Substring containment, used for the "body contains …" clauses. -/
def StrContains (s sub : String) : Prop :=
  ∃ a b : List Char, s.data = a ++ (sub.data ++ b)

/-! # Theorems -/

/-! ## The parser -/

theorem handleSeparators_nil : handleSeparators [] = [] := rfl

/-- Unfolding of `extract_numeric_value` as one equivalence: a value is
returned exactly when the separator-normalized cleaning parses as a float in
the open interval `(100, 10000)`. -/
theorem extract_some_iff (l : List Char) (v : ℚ) :
    extract_numeric_value l = some v ↔
      (pyFloat (handleSeparators (cleanText l)) = some v ∧ 100 < v ∧ v < 10000) := by
  unfold extract_numeric_value
  by_cases hclean : (cleanText l).isEmpty
  · have hnil : cleanText l = [] := by
      cases h : cleanText l with
      | nil => rfl
      | cons a as => rw [h] at hclean; simp at hclean
    simp only [hclean, if_pos]
    rw [hnil, handleSeparators_nil]
    simp [pyFloat]
  · simp only [hclean, if_neg, Bool.false_eq_true, not_false_iff]
    cases hp : pyFloat (handleSeparators (cleanText l)) with
    | none => simp
    | some w =>
      by_cases hr : 100 < w ∧ w < 10000
      · simp only [hr, if_pos]
        constructor
        · rintro h; cases h; exact ⟨rfl, hr⟩
        · rintro ⟨h, _⟩; cases h; rfl
      · simp only [hr, if_neg, not_false_iff]
        constructor
        · rintro h; cases h
        · rintro ⟨h, hv⟩; cases h; exact absurd hv hr

/-- C1 (counterexample).  The spec's example `"1.800,25" → 1800.25` fails on
the code: both separators are present, so line 136 strips the comma, giving
`"1.80025"`, whose value `1.80025` fails the `(100, 10000)` sanity bound and
is rejected (`None`). -/
theorem C1_counterexample : ¬ (extractS "1.800,25" = some (1800.25 : ℚ)) := by
  have h : extractS "1.800,25" = none := by decide
  rw [h]; simp

/-- C1 (amended).  `"1688.5590 ARS"` normalizes to `1688.559` and `"1,800"`
to `1800.0`, as claimed; but the European dot-thousands inputs `"1.800,25"`
and `"1.688,56"` do NOT normalize to `1800.25`/`1688.56`: the code treats the
comma as a thousands separator whenever a dot is also present, producing the
out-of-range values `1.80025`/`1.68856`, hence `None`. -/
theorem C1_amended :
    extractS "1688.5590 ARS" = some (1688.559 : ℚ) ∧
    extractS "1,800" = some (1800 : ℚ) ∧
    extractS "1.800,25" = none ∧
    extractS "1.688,56" = none := by
  refine ⟨?_, by decide, by decide, by decide⟩
  have h : extractS "1688.5590 ARS" = some (mkRat 1688559 1000) := by decide
  rw [h, Rat.mkRat_eq_div]; norm_num

/-- C2.  `_extract_numeric_value` returns `some v` exactly when the cleaned,
separator-normalized string parses as a float with `100 < v < 10000`; in
particular the boundary values `100` and `10000` are rejected. -/
theorem C2_range_gate :
    (∀ (l : List Char) (v : ℚ),
      extract_numeric_value l = some v ↔
        (pyFloat (handleSeparators (cleanText l)) = some v ∧ 100 < v ∧ v < 10000)) ∧
    extractS "100" = none ∧ extractS "10000" = none ∧
    extractS "99.5" = none ∧ extractS "10000.5" = none :=
  ⟨extract_some_iff, by decide, by decide, by decide, by decide⟩

/-- C3.  On a cleaned string that contains a comma but no dot, the comma is
treated as a decimal separator (every `','` replaced by `'.'`) exactly when
the group after the last comma has length at most 2; otherwise all commas are
stripped as thousands separators (web_scraper.py lines 137–143). -/
theorem C3_comma_only_rule (l : List Char)
    (hc : l.contains ',' = true) (hd : l.contains '.' = false) :
    handleSeparators l =
      (if ((l.splitOn ',').getLastD []).length ≤ 2 then
        l.map (fun c => if c == ',' then '.' else c)
      else
        l.filter (fun c => c != ',')) := by
  unfold handleSeparators
  rw [hc, hd]
  simp

/-- Witness for C3 at the concrete inputs `"1688,56"` (decimal comma) and
`"1,800"` (thousands comma). -/
theorem C3_comma_only_rule_witness :
    (("1688,56".toList.contains ',' = true ∧ "1688,56".toList.contains '.' = false) ∧
      handleSeparators "1688,56".toList =
        (if (("1688,56".toList.splitOn ',').getLastD []).length ≤ 2 then
          "1688,56".toList.map (fun c => if c == ',' then '.' else c)
        else
          "1688,56".toList.filter (fun c => c != ','))) ∧
    (("1,800".toList.contains ',' = true ∧ "1,800".toList.contains '.' = false) ∧
      handleSeparators "1,800".toList =
        (if (("1,800".toList.splitOn ',').getLastD []).length ≤ 2 then
          "1,800".toList.map (fun c => if c == ',' then '.' else c)
        else
          "1,800".toList.filter (fun c => c != ','))) :=
  ⟨⟨⟨by decide, by decide⟩, C3_comma_only_rule _ (by decide) (by decide)⟩,
   ⟨⟨by decide, by decide⟩, C3_comma_only_rule _ (by decide) (by decide)⟩⟩

/-- C8.  The parser is total — every Python exception path is a `none` in the
embedding: an input whose cleaning is empty returns `none` (line 131), and a
cleaned string rejected by `float()` (`ValueError`, line 154) returns `none`. -/
theorem C8_parser_total (l : List Char) :
    (cleanText l = [] → extract_numeric_value l = none) ∧
    (pyFloat (handleSeparators (cleanText l)) = none → extract_numeric_value l = none) := by
  constructor
  · intro h
    unfold extract_numeric_value
    rw [h]
    simp
  · intro h
    unfold extract_numeric_value
    by_cases he : (cleanText l).isEmpty
    · simp [he]
    · simp only [he, Bool.false_eq_true, if_neg, not_false_iff]
      rw [h]

/-- Witness for C8 at `" ARS "` (cleans to the empty string, `float` fails). -/
theorem C8_parser_total_witness :
    (cleanText " ARS ".toList = [] ∧ extract_numeric_value " ARS ".toList = none) ∧
    (pyFloat (handleSeparators (cleanText " ARS ".toList)) = none ∧
      extract_numeric_value " ARS ".toList = none) :=
  ⟨⟨by decide, (C8_parser_total " ARS ".toList).1 (by decide)⟩,
   ⟨by decide, (C8_parser_total " ARS ".toList).2 (by decide)⟩⟩

/-! ## The retry loop -/

/-- When every attempt in the index list fails, the loop never returns early
and the trace is exactly one `attemptEvents` block per index. -/
theorem scrapeGo_allFail (outcome : Nat → Option ℚ) (delay : ℚ) (m : Int)
    (l : List Nat) (h : ∀ i ∈ l, outcome i = none) :
    scrapeGo outcome delay m l = (none, l.flatMap (attemptEvents delay m)) := by
  induction l with
  | nil => rfl
  | cons i rest ih =>
    have hi : outcome i = none := h i (List.mem_cons_self i rest)
    have ih' := ih (fun j hj => h j (List.mem_cons_of_mem _ hj))
    simp only [scrapeGo, hi, attemptSuccess, ih', List.flatMap_cons, attemptEvents]
    rfl

theorem filter_isAttempt_attemptEvents (d : ℚ) (m : Int) (l : List Nat) :
    (l.flatMap (attemptEvents d m)).filter isAttempt = l.map Ev.attempt := by
  induction l with
  | nil => rfl
  | cons i rest ih =>
    by_cases hc : (i : Int) < m - 1 <;>
      simp [attemptEvents, hc, List.filter_append, isAttempt, ih]

theorem filter_isSleep_attemptEvents (d : ℚ) (m : Int) (l : List Nat) :
    (l.flatMap (attemptEvents d m)).filter isSleep =
      (l.filter (fun i : Nat => decide ((i : Int) < m - 1))).map (fun _ => Ev.sleep d) := by
  induction l with
  | nil => rfl
  | cons i rest ih =>
    by_cases hc : (i : Int) < m - 1 <;>
      simp [attemptEvents, hc, List.filter_append, isSleep, ih]

theorem map_const_eq_replicate {α β : Type} (l : List α) (b : β) :
    l.map (fun _ => b) = List.replicate l.length b := by
  induction l with
  | nil => rfl
  | cons a rest ih => simp [ih, List.replicate_succ]

theorem length_filter_range_lt (n k : Nat) (h : k ≤ n) :
    ((List.range n).filter (fun i => decide (i < k))).length = k := by
  induction n with
  | zero =>
    have : k = 0 := by omega
    simp [this]
  | succ n ih =>
    rw [List.range_succ, List.filter_append]
    by_cases hk : k ≤ n
    · have hn : ¬ (n < k) := by omega
      simp [hn, ih hk]
    · have hk1 : k = n + 1 := by omega
      subst hk1
      have hself : (List.range n).filter (fun i => decide (i < n + 1)) = List.range n := by
        apply List.filter_eq_self.mpr
        intro a ha
        exact decide_eq_true (Nat.lt_succ_of_lt (List.mem_range.mp ha))
      simp [hself, Nat.lt_succ_self]

/-- C4.  When every attempt fails, `get_exchange_rate` performs exactly
`max_retries` attempts, sleeps `delay_between_requests` seconds exactly
`max_retries - 1` times, ends the trace with the final attempt (no sleep
after it), and returns `None`.  No exception reaches the caller: the loop
body's handlers absorb every failure, which the embedding renders by
`get_exchange_rate` being a total function into `Option`. -/
theorem C4_retry_exhaustion (outcome : Nat → Option ℚ) (delay : ℚ) (m : Int)
    (hm : 0 < m) (hfail : ∀ i < m.toNat, outcome i = none) :
    (get_exchange_rate outcome delay m).1 = none ∧
    ((get_exchange_rate outcome delay m).2.filter isAttempt).length = m.toNat ∧
    (get_exchange_rate outcome delay m).2.filter isSleep =
      List.replicate (m.toNat - 1) (Ev.sleep delay) ∧
    ∃ pre, (get_exchange_rate outcome delay m).2 = pre ++ [Ev.attempt (m.toNat - 1)] := by
  have hall : ∀ i ∈ List.range m.toNat, outcome i = none :=
    fun i hi => hfail i (List.mem_range.mp hi)
  have hgo := scrapeGo_allFail outcome delay m _ hall
  unfold get_exchange_rate
  rw [hgo]
  refine ⟨rfl, ?_, ?_, ?_⟩
  · rw [filter_isAttempt_attemptEvents]
    simp
  · rw [filter_isSleep_attemptEvents]
    have hcongr : (List.range m.toNat).filter (fun i : Nat => decide ((i : Int) < m - 1)) =
        (List.range m.toNat).filter (fun i => decide (i < m.toNat - 1)) := by
      apply List.filter_congr
      intro i hi
      have hi' := List.mem_range.mp hi
      have : ((i : Int) < m - 1) ↔ (i < m.toNat - 1) := by omega
      simp [this]
    rw [hcongr, map_const_eq_replicate,
      length_filter_range_lt _ _ (Nat.sub_le m.toNat 1)]
  · have hsplit : List.range m.toNat = List.range (m.toNat - 1) ++ [m.toNat - 1] := by
      have hn : m.toNat = (m.toNat - 1) + 1 := by omega
      conv_lhs => rw [hn, List.range_succ]
    rw [hsplit, List.flatMap_append]
    have hlast : attemptEvents delay m (m.toNat - 1) = [Ev.attempt (m.toNat - 1)] := by
      have : ¬ ((m.toNat - 1 : Nat) : Int) < m - 1 := by omega
      simp [attemptEvents, this]
    exact ⟨(List.range (m.toNat - 1)).flatMap (attemptEvents delay m), by simp [hlast]⟩

/-- Witness for C4: three attempts that all fail, delay 1 — three attempt
events, two sleeps, no value. -/
theorem C4_retry_exhaustion_witness :
    (0 : Int) < 3 ∧ (∀ i < (3 : Int).toNat, (fun _ => (none : Option ℚ)) i = none) ∧
    ((get_exchange_rate (fun _ => none) 1 3).1 = none ∧
      ((get_exchange_rate (fun _ => none) 1 3).2.filter isAttempt).length = (3 : Int).toNat ∧
      (get_exchange_rate (fun _ => none) 1 3).2.filter isSleep =
        List.replicate ((3 : Int).toNat - 1) (Ev.sleep 1) ∧
      ∃ pre, (get_exchange_rate (fun _ => none) 1 3).2 =
        pre ++ [Ev.attempt ((3 : Int).toNat - 1)]) :=
  ⟨by decide, fun _ _ => rfl,
    C4_retry_exhaustion (fun _ => none) 1 3 (by decide) (fun _ _ => rfl)⟩

/-- C10.  With `max_retries ≤ 0` the `range` is empty: no attempt runs (so no
session is created), no sleep happens, and the call returns `None` at once —
even when an attempt would have succeeded. -/
theorem C10_nonpositive_retries (outcome : Nat → Option ℚ) (delay : ℚ) (m : Int)
    (hm : m ≤ 0) : get_exchange_rate outcome delay m = (none, []) := by
  unfold get_exchange_rate
  have h0 : m.toNat = 0 := by omega
  rw [h0]
  rfl

/-- Witness for C10 at `max_retries = -2`, with an outcome that would succeed
if any attempt ran. -/
theorem C10_nonpositive_retries_witness :
    (-2 : Int) ≤ 0 ∧ get_exchange_rate (fun _ => some 1700) 1 (-2) = (none, []) :=
  ⟨by decide, C10_nonpositive_retries (fun _ => some 1700) 1 (-2) (by decide)⟩

/-! ## The monitor run and the notifier -/

theorem strContains_self (s : String) : StrContains s s :=
  ⟨[], [], by simp [StrContains]⟩

theorem strContains_appL {s sub : String} (y : String) (h : StrContains s sub) :
    StrContains (s ++ y) sub := by
  obtain ⟨a, b, hd⟩ := h
  exact ⟨a, b ++ y.data, by simp [hd]⟩

theorem strContains_appR {s sub : String} (y : String) (h : StrContains s sub) :
    StrContains (y ++ s) sub := by
  obtain ⟨a, b, hd⟩ := h
  exact ⟨y.data ++ a, b, by simp [hd]⟩

/-- The alert body always contains the 2-decimal rendering of the rate and of
the threshold, whatever the direction flag and optional URL. -/
theorem alertMessage_contains (r t : ℚ) (a : Bool) (u : Option String) :
    StrContains (alertMessage r t a u) (fmt2 r) ∧
      StrContains (alertMessage r t a u) (fmt2 t) := by
  have hbr : StrContains (alertBase r t a) (fmt2 r) := by
    unfold alertBase
    exact strContains_appL _ (strContains_appL _ (strContains_appL _
      (strContains_appL _ (strContains_appR _ (strContains_self _)))))
  have hbt : StrContains (alertBase r t a) (fmt2 t) := by
    unfold alertBase
    exact strContains_appL _ (strContains_appR _ (strContains_self _))
  unfold alertMessage
  cases u with
  | none => exact ⟨hbr, hbt⟩
  | some u =>
    by_cases hu : u.isEmpty
    · simp only [hu, if_pos]
      exact ⟨hbr, hbt⟩
    · simp only [hu, Bool.false_eq_true, if_neg, not_false_iff]
      exact ⟨strContains_appL _ (strContains_appL _ (strContains_appL _ hbr)),
        strContains_appL _ (strContains_appL _ (strContains_appL _ hbt))⟩

/-- C5.  On a successful acquisition, `run` sends exactly one alert — with
arguments `(rate, threshold, True, url)` — iff `rate ≥ threshold`, and no
alert otherwise; the alert body contains both the rate and the threshold in
2-decimal format (main.py lines 59–64, discord_notifier.py lines 36–43). -/
theorem C5_alert_decision (deliver : Notif → Bool) (r t : ℚ) (url : String) :
    ((run deliver (Except.ok (some r)) t url).2.map Prod.fst).filter isAlert =
      (if t ≤ r then [Notif.alert r t true (some url)] else []) ∧
    (t ≤ r →
      StrContains (notifBody (Notif.alert r t true (some url))) (fmt2 r) ∧
      StrContains (notifBody (Notif.alert r t true (some url))) (fmt2 t)) := by
  constructor
  · by_cases ht : t ≤ r <;> simp [run, ht, isAlert]
  · intro _
    exact alertMessage_contains r t true (some url)

/-- Witness for C5 at rate 1800, threshold 1700 (alert sent). -/
theorem C5_alert_decision_witness :
    ((1700 : ℚ) ≤ 1800) ∧
    (((run (fun _ => true) (Except.ok (some 1800)) 1700 "u").2.map Prod.fst).filter isAlert =
      (if (1700 : ℚ) ≤ 1800 then [Notif.alert 1800 1700 true (some "u")] else []) ∧
      (StrContains (notifBody (Notif.alert 1800 1700 true (some "u"))) (fmt2 1800) ∧
        StrContains (notifBody (Notif.alert 1800 1700 true (some "u"))) (fmt2 1700))) :=
  ⟨by decide,
   (C5_alert_decision (fun _ => true) 1800 1700 "u").1,
   (C5_alert_decision (fun _ => true) 1800 1700 "u").2 (by decide)⟩

/-- C6.  Exit contract of `run` (main.py 44–69): acquisition failure and
unexpected exceptions each send exactly one error notification and exit with
status 1 (`sys.exit(1)` raises `SystemExit`, which `except Exception` does
not catch, so the error path is taken once); a run that obtains a rate exits
with status 0 and sends no error notification, whatever the alert decision
and whatever every notification's delivery result `deliver`. -/
theorem C6_exit_contract (deliver : Notif → Bool) (t : ℚ) (url : String) :
    (∀ e, run deliver (Except.error e) t url =
      (1, [(Notif.error ("Unexpected error: " ++ e),
            deliver (Notif.error ("Unexpected error: " ++ e)))])) ∧
    run deliver (Except.ok none) t url =
      (1, [(Notif.error "Failed to scrape exchange rate from Western Union",
            deliver (Notif.error "Failed to scrape exchange rate from Western Union"))]) ∧
    (∀ r : ℚ, (run deliver (Except.ok (some r)) t url).1 = 0 ∧
      ((run deliver (Except.ok (some r)) t url).2.map Prod.fst).filter isError = []) := by
  refine ⟨fun e => rfl, rfl, fun r => ?_⟩
  by_cases ht : t ≤ r <;> simp [run, ht, isError]

/-- C7 (counterexample).  The claim "any non-2xx HTTP response is converted
to a false return" fails: `raise_for_status` raises only for 4xx/5xx, so a
304 response — not a 2xx — makes `send_rate_alert` return `True`. -/
theorem C7_counterexample :
    (send_rate_alert 1800 1700 true none (Except.ok 304)).1 = true ∧
    ¬ ((200 : Nat) ≤ 304 ∧ (304 : Nat) < 300) :=
  ⟨rfl, by decide⟩

/-- C7 (amended).  Every send operation returns a boolean and never raises
(the embedding is total — both `except` arms of `_send_notification` return);
each performs exactly one POST (no retry) and returns the transport-determined
result: `false` on a transport error and on statuses 400–599 (those for which
`raise_for_status` raises), `true` on every other status — including non-2xx
statuses such as 1xx/3xx, which `raise_for_status` lets pass. -/
theorem C7_amended (r t : ℚ) (a : Bool) (u : Option String) (msg : String)
    (tr : Except Unit Nat) :
    (send_rate_alert r t a u tr = (deliveredBool tr, 1) ∧
      send_error_notification msg tr = (deliveredBool tr, 1) ∧
      send_test_notification tr = (deliveredBool tr, 1)) ∧
    deliveredBool (Except.error ()) = false ∧
    (∀ s : Nat, 400 ≤ s → s < 600 → deliveredBool (Except.ok s) = false) ∧
    (∀ s : Nat, ¬ (400 ≤ s ∧ s < 600) → deliveredBool (Except.ok s) = true) := by
  refine ⟨⟨rfl, rfl, rfl⟩, rfl, fun s h1 h2 => ?_, fun s h => ?_⟩
  · simp [deliveredBool, h1, h2]
  · simp [deliveredBool, h]

/-- Witness for C7 (amended): transport error → `false`; 500 → `false`;
204 (Discord's success status) → `true`. -/
theorem C7_amended_witness :
    send_rate_alert 1800 1700 true none (Except.error ()) =
      (deliveredBool (Except.error ()), 1) ∧
    deliveredBool (Except.ok 500) = false ∧
    deliveredBool (Except.ok 204) = true :=
  ⟨(C7_amended 1800 1700 true none "m" (Except.error ())).1.1,
   (C7_amended 1800 1700 true none "m" (Except.error ())).2.2.1 500 (by decide) (by decide),
   (C7_amended 1800 1700 true none "m" (Except.error ())).2.2.2 204 (by decide)⟩

/-! ## Decimal rendering: round-trip lemmas -/

theorem digitVal_digitChar : ∀ n < 10, digitVal (digitChar n) = n := by decide

theorem digitChar_isDigit (n : Nat) : (digitChar n).isDigit = true := by
  unfold digitChar
  rcases n with _ | _ | _ | _ | _ | _ | _ | _ | _ | n <;> rfl

theorem isDigit_bne_dot {c : Char} (h : c.isDigit = true) : (c != '.') = true := by
  cases hbe : c == '.' with
  | false => simp [bne, hbe]
  | true =>
    have : c = '.' := eq_of_beq hbe
    subst this
    cases h

theorem isDigit_ne_comma {c : Char} (h : c.isDigit = true) : c ≠ ',' := by
  intro hc
  subst hc
  cases h

theorem isDigit_ne_dot {c : Char} (h : c.isDigit = true) : c ≠ '.' := by
  intro hc
  subst hc
  cases h

theorem digitsToNat_append_last (xs : List Char) (c : Char) :
    digitsToNat (xs ++ [c]) = 10 * digitsToNat xs + digitVal c := by
  simp [digitsToNat, List.foldl_append]

theorem digitsToNat_natToDigits10 (n : Nat) : digitsToNat (natToDigits10 n) = n := by
  induction n using Nat.strong_induction_on with
  | _ n ih =>
    rw [natToDigits10]
    by_cases h : n < 10
    · simp only [h, dif_pos]
      show 10 * 0 + digitVal (digitChar n) = n
      rw [digitVal_digitChar n h]
      omega
    · simp only [h, dif_neg, not_false_iff]
      rw [digitsToNat_append_last, ih (n / 10) (Nat.div_lt_self (by omega) (by omega)),
        digitVal_digitChar (n % 10) (Nat.mod_lt n (by omega))]
      omega

theorem natToDigits10_ne_nil (n : Nat) : natToDigits10 n ≠ [] := by
  rw [natToDigits10]
  by_cases h : n < 10 <;> simp [h]

theorem natToDigits10_all_isDigit (n : Nat) :
    ∀ c ∈ natToDigits10 n, c.isDigit = true := by
  induction n using Nat.strong_induction_on with
  | _ n ih =>
    intro c hc
    rw [natToDigits10] at hc
    by_cases h : n < 10
    · simp only [h, dif_pos, List.mem_singleton] at hc
      subst hc
      exact digitChar_isDigit n
    · simp only [h, dif_neg, not_false_iff, List.mem_append, List.mem_singleton] at hc
      rcases hc with hc | hc
      · exact ih (n / 10) (Nat.div_lt_self (by omega) (by omega)) c hc
      · subst hc
        exact digitChar_isDigit (n % 10)

theorem natToDigits10_length_le (k : Nat) :
    ∀ n, 0 < k → n < 10 ^ k → (natToDigits10 n).length ≤ k := by
  induction k with
  | zero => intro n h; omega
  | succ k ih =>
    intro n _ hn
    rw [natToDigits10]
    by_cases h : n < 10
    · simp [h]
    · simp only [h, dif_neg, not_false_iff, List.length_append, List.length_singleton]
      have hk : 0 < k := by
        by_contra hk0
        have : k = 0 := by omega
        subst this
        simp at hn
        omega
      have hdiv : n / 10 < 10 ^ k := by
        rw [Nat.div_lt_iff_lt_mul (by norm_num)]
        calc n < 10 ^ (k + 1) := hn
          _ = 10 ^ k * 10 := by rw [pow_succ]
      have := ih (n / 10) hk hdiv
      omega

theorem foldl_replicate_zero (j : Nat) :
    List.foldl (fun a c => 10 * a + digitVal c) 0 (List.replicate j '0') = 0 := by
  induction j with
  | zero => rfl
  | succ j ih => simpa [List.replicate_succ] using ih

theorem digitsToNat_replicate_zero_append (j : Nat) (ds : List Char) :
    digitsToNat (List.replicate j '0' ++ ds) = digitsToNat ds := by
  unfold digitsToNat
  rw [List.foldl_append, foldl_replicate_zero]

theorem takeWhile_append_cons {p : Char → Bool} (xs : List Char) (y : Char)
    (ys : List Char) (hall : ∀ c ∈ xs, p c = true) (hy : p y = false) :
    (xs ++ y :: ys).takeWhile p = xs := by
  induction xs with
  | nil => simp [List.takeWhile, hy]
  | cons a rest ih =>
    have ha : p a = true := hall a (List.mem_cons_self a rest)
    rw [List.cons_append, List.takeWhile_cons_of_pos ha,
      ih (fun c hc => hall c (List.mem_cons_of_mem _ hc))]

theorem dropWhile_append_cons {p : Char → Bool} (xs : List Char) (y : Char)
    (ys : List Char) (hall : ∀ c ∈ xs, p c = true) (hy : p y = false) :
    (xs ++ y :: ys).dropWhile p = y :: ys := by
  induction xs with
  | nil => simp [List.dropWhile, hy]
  | cons a rest ih =>
    have ha : p a = true := hall a (List.mem_cons_self a rest)
    rw [List.cons_append, List.dropWhile_cons_of_pos ha]
    exact ih (fun c hc => hall c (List.mem_cons_of_mem _ hc))

theorem takeWhile_of_all {p : Char → Bool} (l : List Char)
    (hall : ∀ c ∈ l, p c = true) : l.takeWhile p = l := by
  induction l with
  | nil => rfl
  | cons a rest ih =>
    have ha : p a = true := hall a (List.mem_cons_self a rest)
    rw [List.takeWhile_cons_of_pos ha,
      ih (fun c hc => hall c (List.mem_cons_of_mem _ hc))]

theorem dropWhile_of_all {p : Char → Bool} (l : List Char)
    (hall : ∀ c ∈ l, p c = true) : l.dropWhile p = [] := by
  induction l with
  | nil => rfl
  | cons a rest ih =>
    have ha : p a = true := hall a (List.mem_cons_self a rest)
    rw [List.dropWhile_cons_of_pos ha]
    exact ih (fun c hc => hall c (List.mem_cons_of_mem _ hc))

theorem isEmpty_false_of_ne_nil {l : List Char} (h : l ≠ []) : l.isEmpty = false := by
  cases l with
  | nil => exact absurd rfl h
  | cons a as => rfl

theorem contains_false_of_not_mem {l : List Char} {a : Char} (h : a ∉ l) :
    l.contains a = false := by
  cases hc : l.contains a with
  | false => rfl
  | true => exact absurd (List.mem_of_elem_eq_true hc) h

theorem pyFloat_natToDigits10 (n : Nat) :
    pyFloat (natToDigits10 n) = some ((n : ℚ)) := by
  have hall : ∀ c ∈ natToDigits10 n, (fun c : Char => c != '.') c = true :=
    fun c hc => isDigit_bne_dot (natToDigits10_all_isDigit n c hc)
  have hd : (natToDigits10 n).all Char.isDigit = true :=
    List.all_eq_true.mpr (natToDigits10_all_isDigit n)
  have hne : (natToDigits10 n).isEmpty = false :=
    isEmpty_false_of_ne_nil (natToDigits10_ne_nil n)
  unfold pyFloat
  rw [dropWhile_of_all _ hall, takeWhile_of_all _ hall]
  simp [hd, hne, digitsToNat_natToDigits10]

theorem pyFloat_renderDecimal (m k : Nat) :
    pyFloat (renderDecimal m k) = some ((m : ℚ) / 10 ^ k) := by
  by_cases hk : k = 0
  · subst hk
    unfold renderDecimal
    rw [if_pos rfl, pyFloat_natToDigits10]
    norm_num
  · have hkpos : 0 < k := Nat.pos_of_ne_zero hk
    have hpowpos : 0 < 10 ^ k := Nat.pos_pow_of_pos k (by norm_num)
    unfold renderDecimal
    rw [if_neg hk]
    set ds := natToDigits10 (m % 10 ^ k) with hds
    set ip := natToDigits10 (m / 10 ^ k) with hip
    set fp := List.replicate (k - ds.length) '0' ++ ds with hfp
    have hip_all : ∀ c ∈ ip, c.isDigit = true := natToDigits10_all_isDigit _
    have hfp_all : ∀ c ∈ fp, c.isDigit = true := by
      intro c hc
      rcases List.mem_append.mp hc with hc | hc
      · rw [List.eq_of_mem_replicate hc]; rfl
      · exact natToDigits10_all_isDigit _ c hc
    have hbne : ∀ c ∈ ip, (fun c : Char => c != '.') c = true :=
      fun c hc => isDigit_bne_dot (hip_all c hc)
    have hdot : ((fun c : Char => c != '.') '.') = false := by decide
    unfold pyFloat
    rw [dropWhile_append_cons ip '.' fp hbne hdot,
      takeWhile_append_cons ip '.' fp hbne hdot]
    have h1 : fp.contains '.' = false :=
      contains_false_of_not_mem (fun hm => isDigit_ne_dot (hfp_all '.' hm) rfl)
    have h2 : ip.all Char.isDigit = true := List.all_eq_true.mpr hip_all
    have h3 : fp.all Char.isDigit = true := List.all_eq_true.mpr hfp_all
    have h4 : ip.isEmpty = false := isEmpty_false_of_ne_nil (natToDigits10_ne_nil _)
    simp only [h1, h2, h3, h4, Bool.false_and, Bool.and_true, Bool.true_and,
      Bool.not_false, if_neg, Bool.false_eq_true, not_false_iff, if_pos]
    have hlen : fp.length = k := by
      rw [hfp, List.length_append, List.length_replicate]
      have hmod : m % 10 ^ k < 10 ^ k := Nat.mod_lt _ hpowpos
      have : ds.length ≤ k := by
        rw [hds]
        exact natToDigits10_length_le k _ hkpos hmod
      omega
    have hvfp : digitsToNat fp = m % 10 ^ k := by
      rw [hfp, digitsToNat_replicate_zero_append, hds, digitsToNat_natToDigits10]
    have hvip : digitsToNat ip = m / 10 ^ k := by
      rw [hip, digitsToNat_natToDigits10]
    have hN : m / 10 ^ k * 10 ^ k + m % 10 ^ k = m := Nat.div_add_mod' m (10 ^ k)
    rw [hlen]
    have hNZ : ((digitsToNat ip : ℤ) * (10 : ℤ) ^ k + (digitsToNat fp : ℤ)) = (m : ℤ) := by
      rw [hvip, hvfp]
      exact_mod_cast hN
    rw [hNZ, Rat.mkRat_eq_div]
    push_cast
    ring_nf

theorem renderDecimal_chars (m k : Nat) :
    ∀ c ∈ renderDecimal m k, c.isDigit = true ∨ c = '.' := by
  intro c hc
  unfold renderDecimal at hc
  by_cases hk : k = 0
  · rw [if_pos hk] at hc
    exact Or.inl (natToDigits10_all_isDigit m c hc)
  · rw [if_neg hk] at hc
    rcases List.mem_append.mp hc with hc | hc
    · exact Or.inl (natToDigits10_all_isDigit _ c hc)
    · rcases List.mem_cons.mp hc with hc | hc
      · exact Or.inr hc
      · rcases List.mem_append.mp hc with hc | hc
        · rw [List.eq_of_mem_replicate hc]; exact Or.inl rfl
        · exact Or.inl (natToDigits10_all_isDigit _ c hc)

theorem cleanText_renderDecimal (m k : Nat) :
    cleanText (renderDecimal m k) = renderDecimal m k := by
  apply List.filter_eq_self.mpr
  intro c hc
  rcases renderDecimal_chars m k c hc with h | h
  · simp [h]
  · subst h; rfl

theorem handleSeparators_renderDecimal (m k : Nat) :
    handleSeparators (renderDecimal m k) = renderDecimal m k := by
  have hmem : ',' ∉ renderDecimal m k := by
    intro hc
    rcases renderDecimal_chars m k ',' hc with h | h
    · cases h
    · cases h
  have hcf : (renderDecimal m k).contains ',' = false := contains_false_of_not_mem hmem
  unfold handleSeparators
  rw [hcf]
  simp

/-- The denominator of `mkRat n (10 ^ L)` divides `10 ^ L`. -/
theorem den_mkRat_pow_dvd (n : ℤ) (L : Nat) : (mkRat n (10 ^ L)).den ∣ 10 ^ L := by
  have hdvd := Rat.den_dvd n ((10 ^ L : ℕ) : ℤ)
  rw [← Rat.mkRat_eq_divInt] at hdvd
  exact_mod_cast hdvd

/-- A value produced by `pyFloat` has a denominator dividing a power of ten. -/
theorem pyFloat_den_dvd (l : List Char) (v : ℚ) (h : pyFloat l = some v) :
    ∃ K, v.den ∣ 10 ^ K := by
  unfold pyFloat at h
  split at h
  · split_ifs at h with hc
    cases h
    exact ⟨0, by simp⟩
  · split_ifs at h with h1 h2
    cases h
    exact ⟨_, den_mkRat_pow_dvd _ _⟩

/-- A 10-smooth number divides the power of ten with its own exponent. -/
theorem tenSmooth (d K : Nat) (h : d ∣ 10 ^ K) : d ∣ 10 ^ d := by
  have h25 : d ∣ 2 ^ K * 5 ^ K := by
    have hpow : (10 : ℕ) ^ K = 2 ^ K * 5 ^ K := by rw [← Nat.mul_pow]
    rwa [hpow] at h
  obtain ⟨d1, d2, hd1, hd2, rfl⟩ := exists_dvd_and_dvd_of_dvd_mul h25
  obtain ⟨a, _, rfl⟩ := (Nat.dvd_prime_pow Nat.prime_two).mp hd1
  obtain ⟨b, _, rfl⟩ := (Nat.dvd_prime_pow Nat.prime_five).mp hd2
  have hpos : 0 < 2 ^ a * 5 ^ b :=
    Nat.mul_pos (Nat.pos_pow_of_pos a (by norm_num)) (Nat.pos_pow_of_pos b (by norm_num))
  have ha : a ≤ 2 ^ a * 5 ^ b := by
    have h1 : 2 ^ a ≤ 2 ^ a * 5 ^ b :=
      Nat.le_mul_of_pos_right _ (Nat.pos_pow_of_pos b (by norm_num))
    have h2 : a < 2 ^ a := Nat.lt_two_pow a
    omega
  have hb : b ≤ 2 ^ a * 5 ^ b := by
    have h1 : 5 ^ b ≤ 2 ^ a * 5 ^ b :=
      Nat.le_mul_of_pos_left _ (Nat.pos_pow_of_pos a (by norm_num))
    have h2 : b < 5 ^ b := Nat.lt_pow_self (by norm_num) b
    omega
  calc 2 ^ a * 5 ^ b ∣ 2 ^ (2 ^ a * 5 ^ b) * 5 ^ (2 ^ a * 5 ^ b) :=
        mul_dvd_mul (pow_dvd_pow 2 ha) (pow_dvd_pow 5 hb)
    _ = 10 ^ (2 ^ a * 5 ^ b) := by rw [← Nat.mul_pow]

/-- The exponent `decExp d` always has `d` dividing its power of ten,
provided `d ∣ 10 ^ d`. -/
theorem decExp_dvd (d : Nat) (h : d ∣ 10 ^ d) : d ∣ 10 ^ decExp d := by
  unfold decExp
  cases hf : (List.range (d + 1)).filter (fun k => decide (d ∣ 10 ^ k)) with
  | nil => simpa using h
  | cons x xs =>
    have hx : x ∈ (List.range (d + 1)).filter (fun k => decide (d ∣ 10 ^ k)) := by
      rw [hf]; exact List.mem_cons_self x xs
    have := List.of_mem_filter hx
    simpa using this

/-- The value rendered by `decRender` is the original rational, for the
nonnegative rationals with 10-smooth denominator that parsing produces. -/
theorem decRender_value (v : ℚ) (h0 : 0 ≤ v) (hd : v.den ∣ 10 ^ decExp v.den) :
    ((v.num.toNat * (10 ^ decExp v.den / v.den) : ℕ) : ℚ) / 10 ^ decExp v.den = v := by
  have hden0 : (v.den : ℚ) ≠ 0 := Nat.cast_ne_zero.mpr v.den_nz
  have hnum0 : 0 ≤ v.num := Rat.num_nonneg.mpr h0
  have hM : (v.num.toNat * (10 ^ decExp v.den / v.den) : ℕ) =
      v.num.toNat * 10 ^ decExp v.den / v.den := (Nat.mul_div_assoc _ hd).symm
  rw [hM]
  rw [Nat.cast_div (Dvd.dvd.mul_left hd _) hden0]
  push_cast [Int.toNat_of_nonneg hnum0]
  rw [div_div, mul_comm (v.den : ℚ) _, ← div_div]
  rw [mul_div_assoc, div_self (by positivity : (10 : ℚ) ^ decExp v.den ≠ 0), mul_one]
  have hcast : ((v.num.toNat : ℕ) : ℚ) = (v.num : ℚ) := by
    exact_mod_cast congrArg (fun z : ℤ => (z : ℚ)) (Int.toNat_of_nonneg hnum0)
  rw [hcast]
  exact Rat.num_div_den v

/-- C9.  Parse/render idempotence: if parsing an input succeeds with value
`v`, re-parsing the plain decimal rendering of `v` succeeds and yields `v`
again.  (Purity holds by construction: the embedding of
`_extract_numeric_value` is a function of the input text alone.) -/
theorem C9_parse_render_roundtrip (l : List Char) (v : ℚ)
    (h : extract_numeric_value l = some v) :
    extract_numeric_value (decRender v) = some v := by
  obtain ⟨hp, h100, h10000⟩ := (extract_some_iff l v).mp h
  have h0 : (0 : ℚ) ≤ v := le_of_lt (lt_trans (by norm_num) h100)
  obtain ⟨K, hK⟩ := pyFloat_den_dvd _ _ hp
  have hdvd := decExp_dvd _ (tenSmooth _ _ hK)
  unfold decRender
  rw [extract_some_iff, cleanText_renderDecimal, handleSeparators_renderDecimal,
    pyFloat_renderDecimal, decRender_value v h0 hdvd]
  exact ⟨rfl, h100, h10000⟩

/-- Witness for C9 at `"1688.5590"`: parsing yields `1688.559`, and
re-parsing its rendering yields `1688.559` again. -/
theorem C9_parse_render_roundtrip_witness :
    extract_numeric_value "1688.5590".toList = some (mkRat 1688559 1000) ∧
    extract_numeric_value (decRender (mkRat 1688559 1000)) = some (mkRat 1688559 1000) :=
  ⟨by decide, C9_parse_render_roundtrip "1688.5590".toList _ (by decide)⟩

end EurToArs
